import Mathlib

/-!
Verification of the MEA Intel Engine firmware decoder (MEA.py).

Shallow embedding of the binary-container decoding engine of MEA.py.
Byte buffers are `List Nat` (each element one byte value), Python ints are
`Nat`/`Int`, Python byte-string slicing is modelled with clipping exactly as
in CPython, and the bit/hex-string games that MEA.py plays through
`format(_, '032b')`, `'%X' %`, `'%0.8X' %`, `int(_, 2)` and `int(_, 16)` are
modelled through explicit digit lists.
-/

namespace MEA

/-! ## Python primitives -/

/-- `l[a:b]` for a Python bytes object with non-negative clamped bounds:
out-of-range indices are clipped, never an error. -/
def pySlice (l : List Nat) (a b : Nat) : List Nat := (l.take b).drop a

/-- `l[off:off+n]`: read `n` bytes at `off`, clipped at the end of `l`. -/
def readBytes (l : List Nat) (off n : Nat) : List Nat := pySlice l off (off + n)

/-- `int.from_bytes(l, 'little')` (a short or empty list is allowed, exactly
as in Python). -/
def fromBytesLE (l : List Nat) : Nat := l.foldr (fun b acc => b + 256 * acc) 0

/-- `int.from_bytes(reading[off:off+4], 'little')`. -/
def le32 (l : List Nat) (off : Nat) : Nat := fromBytesLE (readBytes l off 4)

/-- The base-`b` digit string of `n`, zero-padded on the left to width `w`,
most significant digit first: `digitsPad b w n` models `format(n, '0wb')`
for `b = 2` (and the `'%0.8X'`/`hexdigest` fixed-width hexadecimal strings
for `b = 16`) whenever `n < b ^ w`. -/
def digitsPad (b : Nat) : Nat → Nat → List Nat
  | 0, _ => []
  | w + 1, n => (n / b ^ w % b) :: digitsPad b w n

/-- The numeric value of a digit string, models `int(s, b)`. -/
def digitsVal (b : Nat) (l : List Nat) : Nat := l.foldl (fun a d => b * a + d) 0

/-- `format(n, '032b')` for a 32-bit `n`: the 32 binary digits, MSB first. -/
def format032b (n : Nat) : List Nat := digitsPad 2 32 n

/-! ## $CPD entry offset/attribute decoding (MEA.py `ext_anl`, lines 1942-1946)

```python
cpd_off_attr = format(cpd_entry_hdr.OffsetAttrib, '032b') # 32 bits (LE)
cpd_mod_off  = int(cpd_off_attr[7:], 2)  # Address (from $CPD, 25 bits)
cpd_mod_huff = int(cpd_off_attr[6], 2)   # Huffman (0 No, 1 Yes)
cpd_mod_res  = int(cpd_off_attr[:6], 2)  # Reserved (0, 6 bits)
```
-/

/-- Decoded module offset: value of the last 25 characters of the 32-bit
binary string of the attribute word. -/
def cpd_mod_off (w : Nat) : Nat := digitsVal 2 ((format032b w).drop 7)

/-- Decoded Huffman flag: value of character 6 (bit 25) of the 32-bit binary
string of the attribute word. -/
def cpd_mod_huff (w : Nat) : Nat := digitsVal 2 (((format032b w).drop 6).take 1)

/-- Decoded reserved field: value of the first 6 characters. It is computed
by `ext_anl` and never compared against anything. -/
def cpd_mod_res (w : Nat) : Nat := digitsVal 2 ((format032b w).take 6)

/-! ### Digit-string lemmas -/

theorem digitsPad_length (b w n : Nat) : (digitsPad b w n).length = w := by
  induction w with
  | zero => rfl
  | succ w ih => simp [digitsPad, ih]

theorem digitsPad_drop (b : Nat) : ∀ (w k n : Nat),
    (digitsPad b w n).drop k = digitsPad b (w - k) n := by
  intro w
  induction w with
  | zero => intro k n; simp [digitsPad]
  | succ w ih =>
    intro k n
    cases k with
    | zero => rfl
    | succ k => simpa [digitsPad] using ih k n

theorem digitsVal_cons (b d : Nat) (l : List Nat) :
    digitsVal b (d :: l) = d * b ^ l.length + digitsVal b l := by
  have h : ∀ (l : List Nat) (a : Nat),
      l.foldl (fun a d => b * a + d) a = a * b ^ l.length + digitsVal b l := by
    intro l
    induction l with
    | nil => intro a; simp [digitsVal]
    | cons x xs ih =>
      intro a
      have hd : digitsVal b (x :: xs) = x * b ^ xs.length + digitsVal b xs := by
        show xs.foldl (fun a d => b * a + d) (b * 0 + x) = _
        rw [ih (b * 0 + x)]
        ring_nf
      simp only [List.foldl_cons, List.length_cons]
      rw [ih (b * a + x), hd]
      ring
  have hd0 : digitsVal b (d :: l) = l.foldl (fun a d => b * a + d) (b * 0 + d) := rfl
  rw [hd0, h l (b * 0 + d)]
  ring

theorem digitsVal_digitsPad (b : Nat) : ∀ (w n : Nat),
    digitsVal b (digitsPad b w n) = n % b ^ w := by
  intro w
  induction w with
  | zero => intro n; simp [digitsPad, digitsVal, Nat.mod_one]
  | succ w ih =>
    intro n
    rw [digitsPad, digitsVal_cons, digitsPad_length, ih, Nat.mod_pow_succ]
    ring

theorem digitsPad_eq_iff (b w a a' : Nat) :
    digitsPad b w a = digitsPad b w a' ↔ a % b ^ w = a' % b ^ w := by
  constructor
  · intro h
    have := congrArg (digitsVal b) h
    rwa [digitsVal_digitsPad, digitsVal_digitsPad] at this
  · intro h
    induction w with
    | zero => rfl
    | succ w ih =>
      have htail : a % b ^ w = a' % b ^ w := by
        have h1 := Nat.mod_mul_right_mod a (b ^ w) b
        have h2 := Nat.mod_mul_right_mod a' (b ^ w) b
        rw [← Nat.pow_succ] at h1 h2
        rw [← h1, ← h2, h]
      have hhead : a / b ^ w % b = a' / b ^ w % b := by
        have h1 := Nat.mod_mul_right_div_self a (b ^ w) b
        have h2 := Nat.mod_mul_right_div_self a' (b ^ w) b
        rw [← Nat.pow_succ] at h1 h2
        rw [← h1, ← h2, h]
      rw [digitsPad, digitsPad, hhead, ih htail]

theorem cpd_mod_off_eq (w : Nat) : cpd_mod_off w = w % 2 ^ 25 := by
  rw [cpd_mod_off, format032b, digitsPad_drop, digitsVal_digitsPad]

theorem cpd_mod_huff_eq (w : Nat) : cpd_mod_huff w = w / 2 ^ 25 % 2 := by
  rw [cpd_mod_huff, format032b, digitsPad_drop]
  show digitsVal 2 ((digitsPad 2 26 w).take 1) = _
  rw [digitsPad]
  simp [digitsVal]

/-- C1: for every 32-bit $CPD entry attribute word, the decoded module offset
equals bits [0:25) of the stored word (the word modulo `2 ^ 25`) and the
Huffman flag equals bit 25 (`w / 2 ^ 25 % 2`), whatever the value of the
upper 7 reserved bits, which the decoder never validates. -/
theorem c1_cpd_offset_attrib_decode (w : Nat) (_hw : w < 2 ^ 32) :
    cpd_mod_off w = w % 2 ^ 25 ∧ cpd_mod_huff w = w / 2 ^ 25 % 2 :=
  ⟨cpd_mod_off_eq w, cpd_mod_huff_eq w⟩

/-- Witness for C1 at the word `0xFE000005`, whose 7 reserved bits are all
set: the decode still yields offset `5 = 0xFE000005 % 2 ^ 25` and Huffman
flag `1`. -/
theorem c1_cpd_offset_attrib_decode_witness :
    (0xFE000005 : Nat) < 2 ^ 32 ∧
      (cpd_mod_off 0xFE000005 = 0xFE000005 % 2 ^ 25 ∧
        cpd_mod_huff 0xFE000005 = 0xFE000005 / 2 ^ 25 % 2) :=
  ⟨by decide, c1_cpd_offset_attrib_decode 0xFE000005 (by decide)⟩

/-- C9 counterexample: the attribute word `0x01000005` does NOT decode to
offset `5`: bit 24 lies inside the 25-bit offset field, so the decoded
offset is `0x1000005`. -/
theorem c9_cpd_attribute_scenario_cex : cpd_mod_off 0x01000005 ≠ 5 := by
  decide

/-- C9 amended: `0x01000005` decodes to offset `0x1000005` (bit 24 is part
of the 25-bit offset field, not a flag) with Huffman flag `0`, and
`0x02000005` (bit 25 set) decodes to offset `5` with Huffman flag `1`. -/
theorem c9_cpd_attribute_scenario :
    cpd_mod_off 0x01000005 = 0x1000005 ∧ cpd_mod_huff 0x01000005 = 0 ∧
      cpd_mod_off 0x02000005 = 5 ∧ cpd_mod_huff 0x02000005 = 1 := by
  refine ⟨?_, ?_, ?_, ?_⟩ <;> decide

/-! ## $CPD checksum validation (MEA.py `cpd_chk`, lines 1722-1729)

```python
def cpd_chk(cpd_data) :
    cpd_chk_byte = cpd_data[0xB]
    cpd_sum = sum(cpd_data) - cpd_chk_byte
    cpd_chk_calc = (0x100 - cpd_sum & 0xFF) & 0xFF
    if cpd_chk_byte == cpd_chk_calc : return True
    else : return False
```

Python operator precedence makes `0x100 - cpd_sum & 0xFF` parse as
`(0x100 - cpd_sum) & 0xFF`, and `x & 0xFF` on a possibly negative Python
int is the mathematically non-negative remainder `x.emod 256`; the
difference `0x100 - cpd_sum` is modelled in `Int`. `cpd_data[0xB]` assumes
a directory of at least 12 bytes (a `$CPD` header alone has 16); it is
modelled with `getD` and theorems carry the length hypothesis. -/

/-- Sum of a byte list as an integer. -/
def intSum (l : List Nat) : Int := (l.map (fun b => (b : Int))).sum

def cpd_chk (cpd_data : List Nat) : Bool :=
  let cpd_chk_byte : Int := cpd_data.getD 0xB 0
  let cpd_sum : Int := intSum cpd_data - cpd_chk_byte
  let cpd_chk_calc : Int := ((0x100 - cpd_sum).emod 0x100).emod 0x100
  cpd_chk_byte = cpd_chk_calc

theorem intSum_cons (x : Nat) (xs : List Nat) :
    intSum (x :: xs) = (x : Int) + intSum xs := by
  simp [intSum]

theorem intSum_eraseIdx : ∀ (l : List Nat) (i : Nat), i < l.length →
    intSum (l.eraseIdx i) + (l.getD i 0 : Int) = intSum l := by
  intro l
  induction l with
  | nil => intro i hi; simp at hi
  | cons x xs ih =>
    intro i hi
    cases i with
    | zero => simp [intSum, List.eraseIdx]; ring
    | succ i =>
      have hi' : i < xs.length := by simpa using hi
      have h := ih i hi'
      rw [List.eraseIdx_cons_succ, List.getD_cons_succ, intSum_cons, intSum_cons]
      omega

/-- C3: the `$CPD` checksum validator accepts a directory buffer iff
`(0x100 - sum(all directory bytes except the checksum byte at 0xB)) & 0xFF`
equals the checksum byte at offset `0xB`. -/
theorem c3_cpd_checksum_rule (d : List Nat) (hd : 0xB < d.length) :
    cpd_chk d = true ↔
      ((0x100 - intSum (d.eraseIdx 0xB)).emod 0x100 = (d.getD 0xB 0 : Int)) := by
  have hsum : intSum (d.eraseIdx 0xB) = intSum d - (d.getD 0xB 0 : Int) := by
    have := intSum_eraseIdx d 0xB hd
    omega
  have hidem : ((0x100 - (intSum d - (d.getD 0xB 0 : Int))).emod 0x100).emod 0x100
      = (0x100 - (intSum d - (d.getD 0xB 0 : Int))).emod 0x100 :=
    Int.emod_emod_of_dvd _ dvd_rfl
  rw [cpd_chk, hsum]
  simp only [decide_eq_true_eq, hidem]
  exact ⟨fun h => h.symm, fun h => h.symm⟩

/-- Witness for C3: a 16-byte all-zero directory has a valid checksum
(`(0x100 - 0) & 0xFF = 0`), and the validator accepts it. -/
theorem c3_cpd_checksum_rule_witness :
    cpd_chk (List.replicate 16 0) = true ↔
      ((0x100 - intSum ((List.replicate 16 0).eraseIdx 0xB)).emod 0x100 =
        ((List.replicate 16 0).getD 0xB 0 : Int)) :=
  c3_cpd_checksum_rule (List.replicate 16 0) (by decide)

/-! ## SHA-1 and SHA-256 (model of Python `hashlib`, FIPS 180-4)

MEA.py delegates hashing to the `hashlib` standard library. These are
executable models of `hashlib.sha1`/`hashlib.sha256` over byte lists; the
digest is returned as its 160/256-bit numeric value (`hexdigest()` is the
fixed-width hexadecimal string of that value, `digitsPad 16 40`/`64`).
All 32-bit words are `Nat` kept below `2 ^ 32` by explicit reductions. -/

/-- Rotate a 32-bit word left by `s`. -/
def rotl32 (s n : Nat) : Nat := (n * 2 ^ s + n / 2 ^ (32 - s)) % 2 ^ 32

/-- Rotate a 32-bit word right by `s`. -/
def rotr32 (s n : Nat) : Nat := n / 2 ^ s + n % 2 ^ s * 2 ^ (32 - s)

/-- Merkle–Damgård padding shared by SHA-1 and SHA-256: `0x80`, zeros to 56
mod 64, then the bit length as 8 big-endian bytes. -/
def shaPad (msg : List Nat) : List Nat :=
  msg ++ 0x80 :: List.replicate ((119 - msg.length % 64) % 64) 0 ++
    digitsPad 256 8 (8 * msg.length)

def chunksGo : Nat → List Nat → List (List Nat)
  | 0, _ => []
  | k + 1, l => l.take 64 :: chunksGo k (l.drop 64)

/-- Split a (padded) message into 64-byte blocks. -/
def chunks64 (l : List Nat) : List (List Nat) := chunksGo (l.length / 64) l

/-- A 32-bit word from 4 big-endian bytes. -/
def word32be (b : List Nat) : Nat := b.foldl (fun a x => a * 256 + x) 0

/-- The 16 initial 32-bit message-schedule words of a 64-byte block. -/
def words16 (block : List Nat) : List Nat :=
  (List.range 16).map (fun i => word32be ((block.drop (4 * i)).take 4))

/-- SHA-1 message-schedule extension; the accumulator holds the schedule in
reverse (most recent word first). -/
def sha1ExtendRev : List Nat → Nat → List Nat
  | ws, 0 => ws
  | ws, k + 1 =>
    sha1ExtendRev
      ((rotl32 1 (((ws.getD 2 0) ^^^ (ws.getD 7 0)) ^^^
        ((ws.getD 13 0) ^^^ (ws.getD 15 0)))) :: ws) k

def sha1F (i b c d : Nat) : Nat :=
  if i < 20 then (b &&& c) ||| ((0xFFFFFFFF - b) &&& d)
  else if i < 40 then (b ^^^ c) ^^^ d
  else if i < 60 then (b &&& c) ||| (b &&& d) ||| (c &&& d)
  else (b ^^^ c) ^^^ d

def sha1K (i : Nat) : Nat :=
  if i < 20 then 0x5A827999
  else if i < 40 then 0x6ED9EBA1
  else if i < 60 then 0x8F1BBCDC
  else 0xCA62C1D6

/-- SHA-1 working state. -/
structure H5 where
  a : Nat
  b : Nat
  c : Nat
  d : Nat
  e : Nat

def sha1Round (st : H5) (iw : Nat × Nat) : H5 :=
  ⟨(rotl32 5 st.a + sha1F iw.1 st.b st.c st.d + st.e + sha1K iw.1 + iw.2) % 2 ^ 32,
    st.a, rotl32 30 st.b, st.c, st.d⟩

def sha1Block (h : H5) (block : List Nat) : H5 :=
  let ws := (sha1ExtendRev (words16 block).reverse 64).reverse
  let st := ((List.range 80).zip ws).foldl sha1Round h
  ⟨(h.a + st.a) % 2 ^ 32, (h.b + st.b) % 2 ^ 32, (h.c + st.c) % 2 ^ 32,
    (h.d + st.d) % 2 ^ 32, (h.e + st.e) % 2 ^ 32⟩

/-- Big-endian concatenation of 32-bit words into one number. -/
def combineWords (ws : List Nat) : Nat := ws.foldl (fun a w => a * 2 ^ 32 + w % 2 ^ 32) 0

/-- The five 32-bit state words after absorbing all blocks of the padded
message. -/
def sha1Words (msg : List Nat) : List Nat :=
  let h := (chunks64 (shaPad msg)).foldl sha1Block
    ⟨0x67452301, 0xEFCDAB89, 0x98BADCFE, 0x10325476, 0xC3D2E1F0⟩
  [h.a, h.b, h.c, h.d, h.e]

/-- SHA-1 digest of a byte list, as a 160-bit number. -/
def sha1Nat (msg : List Nat) : Nat := combineWords (sha1Words msg)

/-- The 64 SHA-256 round constants (FIPS 180-4 §4.2.2). -/
def sha256K : List Nat :=
  [0x428A2F98, 0x71374491, 0xB5C0FBCF, 0xE9B5DBA5,
   0x3956C25B, 0x59F111F1, 0x923F82A4, 0xAB1C5ED5,
   0xD807AA98, 0x12835B01, 0x243185BE, 0x550C7DC3,
   0x72BE5D74, 0x80DEB1FE, 0x9BDC06A7, 0xC19BF174,
   0xE49B69C1, 0xEFBE4786, 0x0FC19DC6, 0x240CA1CC,
   0x2DE92C6F, 0x4A7484AA, 0x5CB0A9DC, 0x76F988DA,
   0x983E5152, 0xA831C66D, 0xB00327C8, 0xBF597FC7,
   0xC6E00BF3, 0xD5A79147, 0x06CA6351, 0x14292967,
   0x27B70A85, 0x2E1B2138, 0x4D2C6DFC, 0x53380D13,
   0x650A7354, 0x766A0ABB, 0x81C2C92E, 0x92722C85,
   0xA2BFE8A1, 0xA81A664B, 0xC24B8B70, 0xC76C51A3,
   0xD192E819, 0xD6990624, 0xF40E3585, 0x106AA070,
   0x19A4C116, 0x1E376C08, 0x2748774C, 0x34B0BCB5,
   0x391C0CB3, 0x4ED8AA4A, 0x5B9CCA4F, 0x682E6FF3,
   0x748F82EE, 0x78A5636F, 0x84C87814, 0x8CC70208,
   0x90BEFFFA, 0xA4506CEB, 0xBEF9A3F7, 0xC67178F2]

def s256s0 (x : Nat) : Nat := (rotr32 7 x ^^^ rotr32 18 x) ^^^ x / 2 ^ 3

def s256s1 (x : Nat) : Nat := (rotr32 17 x ^^^ rotr32 19 x) ^^^ x / 2 ^ 10

/-- SHA-256 message-schedule extension, schedule kept in reverse. -/
def sha256ExtendRev : List Nat → Nat → List Nat
  | ws, 0 => ws
  | ws, k + 1 =>
    sha256ExtendRev
      (((ws.getD 15 0 + s256s0 (ws.getD 14 0) + ws.getD 6 0 +
        s256s1 (ws.getD 1 0)) % 2 ^ 32) :: ws) k

/-- SHA-256 working state. -/
structure H8 where
  a : Nat
  b : Nat
  c : Nat
  d : Nat
  e : Nat
  f : Nat
  g : Nat
  h : Nat

def sha256Round (st : H8) (kw : Nat × Nat) : H8 :=
  let S1 := (rotr32 6 st.e ^^^ rotr32 11 st.e) ^^^ rotr32 25 st.e
  let ch := (st.e &&& st.f) ^^^ ((0xFFFFFFFF - st.e) &&& st.g)
  let t1 := (st.h + S1 + ch + kw.1 + kw.2) % 2 ^ 32
  let S0 := (rotr32 2 st.a ^^^ rotr32 13 st.a) ^^^ rotr32 22 st.a
  let mj := ((st.a &&& st.b) ^^^ (st.a &&& st.c)) ^^^ (st.b &&& st.c)
  let t2 := (S0 + mj) % 2 ^ 32
  ⟨(t1 + t2) % 2 ^ 32, st.a, st.b, st.c, (st.d + t1) % 2 ^ 32, st.e, st.f, st.g⟩

def sha256Block (h : H8) (block : List Nat) : H8 :=
  let ws := (sha256ExtendRev (words16 block).reverse 48).reverse
  let st := (sha256K.zip ws).foldl sha256Round h
  ⟨(h.a + st.a) % 2 ^ 32, (h.b + st.b) % 2 ^ 32, (h.c + st.c) % 2 ^ 32,
    (h.d + st.d) % 2 ^ 32, (h.e + st.e) % 2 ^ 32, (h.f + st.f) % 2 ^ 32,
    (h.g + st.g) % 2 ^ 32, (h.h + st.h) % 2 ^ 32⟩

/-- The eight 32-bit state words after absorbing all blocks of the padded
message. -/
def sha256Words (msg : List Nat) : List Nat :=
  let h := (chunks64 (shaPad msg)).foldl sha256Block
    ⟨0x6A09E667, 0xBB67AE85, 0x3C6EF372, 0xA54FF53A,
      0x510E527F, 0x9B05688C, 0x1F83D9AB, 0x5BE0CD19⟩
  [h.a, h.b, h.c, h.d, h.e, h.f, h.g, h.h]

/-- SHA-256 digest of a byte list, as a 256-bit number. -/
def sha256Nat (msg : List Nat) : Nat := combineWords (sha256Words msg)

set_option maxRecDepth 40000

/-- Sanity: FIPS 180-4 test vector, SHA-1 of the empty message. -/
theorem sha1Nat_empty : sha1Nat [] = 0xda39a3ee5e6b4b0d3255bfef95601890afd80709 := by decide

/-- Sanity: FIPS 180-4 test vector, SHA-1 of `"abc"`. -/
theorem sha1Nat_abc :
    sha1Nat [0x61, 0x62, 0x63] = 0xa9993e364706816aba3e25717850c26c9cd0d89d := by decide

/-- Sanity: FIPS 180-4 test vector, SHA-256 of the empty message. -/
theorem sha256Nat_empty :
    sha256Nat [] = 0xe3b0c44298fc1c149afbf4c8996fb92427ae41e4649b934ca495991b7852b855 := by
  decide

/-- Sanity: FIPS 180-4 test vector, SHA-256 of `"abc"`. -/
theorem sha256Nat_abc :
    sha256Nat [0x61, 0x62, 0x63] =
      0xba7816bf8f01cfea414140de5dae2223b00361a396177a9cb410ff61f20015ad := by decide

theorem foldl_combine_lt (ws : List Nat) :
    ∀ (a k : Nat), a < 2 ^ (32 * k) →
      ws.foldl (fun a w => a * 2 ^ 32 + w % 2 ^ 32) a < 2 ^ (32 * (k + ws.length)) := by
  induction ws with
  | nil => intro a k ha; simpa using ha
  | cons w ws ih =>
    intro a k ha
    have hstep : a * 2 ^ 32 + w % 2 ^ 32 < 2 ^ (32 * (k + 1)) := by
      have h2 : (a + 1) * 2 ^ 32 ≤ 2 ^ (32 * k) * 2 ^ 32 :=
        Nat.mul_le_mul_right _ ha
      have h4 : 2 ^ (32 * k) * 2 ^ 32 = 2 ^ (32 * (k + 1)) := by
        rw [← pow_add]; ring_nf
      have h3 : w % 2 ^ 32 < 2 ^ 32 := Nat.mod_lt _ (by norm_num)
      rw [← h4]
      have hlt : a * 2 ^ 32 + w % 2 ^ 32 < (a + 1) * 2 ^ 32 := by
        calc a * 2 ^ 32 + w % 2 ^ 32 < a * 2 ^ 32 + 2 ^ 32 := Nat.add_lt_add_left h3 _
          _ = (a + 1) * 2 ^ 32 := by ring
      exact Nat.lt_of_lt_of_le hlt h2
    have := ih (a * 2 ^ 32 + w % 2 ^ 32) (k + 1) hstep
    simpa [Nat.add_comm, Nat.add_assoc, Nat.add_left_comm] using this

theorem combineWords_lt (ws : List Nat) : combineWords ws < 2 ^ (32 * ws.length) := by
  have h := foldl_combine_lt ws 0 0 (by norm_num)
  simpa [combineWords] using h

/-- Every SHA-1 digest value fits in 160 bits. -/
theorem sha1Nat_lt (msg : List Nat) : sha1Nat msg < 16 ^ 40 := by
  have h := combineWords_lt (sha1Words msg)
  have hl : (sha1Words msg).length = 5 := rfl
  rw [hl] at h
  have he : (16 : Nat) ^ 40 = 2 ^ (32 * 5) := by norm_num
  rw [sha1Nat, he]
  exact h

/-- Every SHA-256 digest value fits in 256 bits. -/
theorem sha256Nat_lt (msg : List Nat) : sha256Nat msg < 16 ^ 64 := by
  have h := combineWords_lt (sha256Words msg)
  have hl : (sha256Words msg).length = 8 := rfl
  rw [hl] at h
  have he : (16 : Nat) ^ 64 = 2 ^ (32 * 8) := by norm_num
  rw [sha256Nat, he]
  exact h

/-! ## Hexadecimal formatting (`'%X' % n` and `hexdigest()`)

`'%X' % n` is the shortest upper-case hexadecimal string of `n` (a single
`'0'` for zero); `hexdigest()` of SHA-1/SHA-256 is the fixed-width 40/64
character string. Strings of hex characters are modelled as lists of digit
values, so `'%X' % n` is `digitsPad 16 (hexLen n) n` where `hexLen n` is the
number of hex digits of `n`. -/

/-- Number of hexadecimal digits of `n`, with an explicit fuel argument
(structural recursion; `fuel > n` suffices since the argument is divided by
16 each step). -/
def hexLenGo : Nat → Nat → Nat
  | 0, _ => 0
  | fuel + 1, n => if n < 16 then 1 else hexLenGo fuel (n / 16) + 1

/-- Number of hex digits of `n` (`1` for `n = 0`). -/
def hexLen (n : Nat) : Nat := hexLenGo (n + 1) n

/-- Model of `'%X' % n`: shortest hex digit string of `n`, MSB first. -/
def toHexV (n : Nat) : List Nat := digitsPad 16 (hexLen n) n

theorem hexLenGo_spec : ∀ (fuel n : Nat), n < fuel →
    (1 ≤ hexLenGo fuel n ∧ n < 16 ^ hexLenGo fuel n ∧
      (n ≠ 0 → 16 ^ (hexLenGo fuel n - 1) ≤ n)) := by
  intro fuel
  induction fuel with
  | zero => intro n hn; omega
  | succ fuel ih =>
    intro n hn
    by_cases hsm : n < 16
    · refine ⟨by simp [hexLenGo, hsm], ?_, ?_⟩
      · simp only [hexLenGo, if_pos hsm]
        simpa using hsm
      · intro hne; simp [hexLenGo, hsm]; omega
    · have h16 : 16 ≤ n := by omega
      have hdivlt : n / 16 < fuel := by
        have : n / 16 < n := Nat.div_lt_self (by omega) (by norm_num)
        omega
      obtain ⟨h1, h2, h3⟩ := ih (n / 16) hdivlt
      have hrec : hexLenGo (fuel + 1) n = hexLenGo fuel (n / 16) + 1 := by
        simp [hexLenGo, hsm]
      refine ⟨by omega, ?_, ?_⟩
      · rw [hrec]
        have : n < 16 * (n / 16) + 16 := by omega
        calc n < 16 * (n / 16) + 16 := this
          _ ≤ 16 * (16 ^ hexLenGo fuel (n / 16) - 1) + 16 := by
            have := h2; omega
          _ ≤ 16 ^ (hexLenGo fuel (n / 16) + 1) := by
            rw [pow_succ]
            have hp : 1 ≤ 16 ^ hexLenGo fuel (n / 16) := Nat.one_le_pow _ _ (by norm_num)
            omega
      · intro _
        rw [hrec]
        have hd0 : n / 16 ≠ 0 := by
          intro h0; rw [Nat.div_eq_zero_iff] at h0 <;> omega
        have := h3 hd0
        calc 16 ^ (hexLenGo fuel (n / 16) + 1 - 1) = 16 ^ (hexLenGo fuel (n / 16) - 1) * 16 := by
              rw [← pow_succ]
              congr 1
              omega
          _ ≤ n / 16 * 16 := Nat.mul_le_mul_right _ this
          _ ≤ n := Nat.div_mul_le_self n 16

theorem hexLen_pos (n : Nat) : 1 ≤ hexLen n := (hexLenGo_spec (n + 1) n (by omega)).1

theorem lt_pow_hexLen (n : Nat) : n < 16 ^ hexLen n := (hexLenGo_spec (n + 1) n (by omega)).2.1

theorem pow_hexLen_le (n : Nat) (h : n ≠ 0) : 16 ^ (hexLen n - 1) ≤ n :=
  (hexLenGo_spec (n + 1) n (by omega)).2.2 h

/-- The `dec_hash == rsa_hash` string comparison of `rsa_sig_val`
characterised numerically: `'%X' % d` sliced by `[-L:]` equals the
`L`-character hexdigest of `dg` iff `d` has at least `L` significant hex
digits and its low `L` hex digits are the digest. -/
theorem hexCompare (d dg L : Nat) (hL : 2 ≤ L) (hdg : dg < 16 ^ L) :
    ((toHexV d).drop ((toHexV d).length - L) == digitsPad 16 L dg) = true ↔
      (16 ^ (L - 1) ≤ d ∧ d % 16 ^ L = dg) := by
  rw [beq_iff_eq, toHexV, digitsPad_length, digitsPad_drop]
  by_cases hcase : L ≤ hexLen d
  · have hW : hexLen d - (hexLen d - L) = L := by omega
    rw [hW, digitsPad_eq_iff, Nat.mod_eq_of_lt hdg]
    constructor
    · intro h
      refine ⟨?_, h⟩
      have hd0 : d ≠ 0 := by
        intro h0
        subst h0
        have h1 : hexLen 0 = 1 := rfl
        omega
      exact le_trans (Nat.pow_le_pow_right (by norm_num) (by omega)) (pow_hexLen_le d hd0)
    · intro h
      exact h.2
  · push_neg at hcase
    have hW : hexLen d - (hexLen d - L) = hexLen d := by omega
    rw [hW]
    constructor
    · intro h
      have hlen := congrArg List.length h
      rw [digitsPad_length, digitsPad_length] at hlen
      omega
    · intro h
      exfalso
      have hlt : d < 16 ^ (L - 1) :=
        lt_of_lt_of_le (lt_pow_hexLen d) (Nat.pow_le_pow_right (by norm_num) (by omega))
      have hge := h.1
      omega

/-! ## RSA manifest-signature validation (MEA.py `rsa_sig_val`, lines 1731-1755)

```python
def rsa_sig_val(man_hdr_struct, check_start) :
    man_hdr = man_hdr_struct.HeaderLength * 4
    man_size = man_hdr_struct.Size * 4
    man_pexp = man_hdr_struct.RsaPubExp
    man_pkey = int((''.join('%0.8X' % ... for val in reversed(man_hdr_struct.RsaPubKey))), 16)
    man_sign = int((''.join('%0.8X' % ... for val in reversed(man_hdr_struct.RsaSig))), 16)
    try :
        dec_sign = '%X' % pow(man_sign, man_pexp, man_pkey)
        if (variant == 'ME' and major < 6) or (variant == 'SPS' and major < 2) : # SHA-1
            rsa_hash = hashlib.sha1(); dec_hash = dec_sign[-40:]
        else :                                                                  # SHA-256
            rsa_hash = hashlib.sha256(); dec_hash = dec_sign[-64:]
        rsa_hash.update(reading[check_start:check_start + 0x80])
        rsa_hash.update(reading[check_start + man_hdr:check_start + man_size])
        rsa_hash = rsa_hash.hexdigest().upper()
        return [dec_hash == rsa_hash, dec_hash, rsa_hash, False]
    except :
        return [False, 0, 0, True]
```

`pow(s, e, 0)` raises `ValueError` (caught by the bare `except`); with a
non-zero modulus nothing in the `try` block can raise, so the `except` arm
maps exactly to a zero modulus. The manifest stores key and signature as 64
little-endian-ordered 32-bit words; the `'%0.8X'` join over the reversed
word list makes the last word most significant, so the assembled integer is
`Σ wᵢ · 2^(32·i)`. -/

/-- Value assembled from little-endian-ordered 32-bit words. -/
def fromWordsLE (ws : List Nat) : Nat := ws.foldr (fun w acc => acc * 2 ^ 32 + w) 0

/-- The fields of `MN2_Manifest` read by `rsa_sig_val` (the full ctypes
struct carries many more fields, none of which this function touches). -/
structure MN2_Manifest where
  HeaderLength : Nat
  Size : Nat
  RsaPubExp : Nat
  RsaPubKey : List Nat
  RsaSig : List Nat

/-- Result of `rsa_sig_val`: the 4-element Python list
`[valid, dec_hash, rsa_hash, error]`; the `except` arm returns
`[False, 0, 0, True]`. -/
inductive RsaResult where
  | ok (valid : Bool) (decHash calcHash : List Nat) : RsaResult
  | exc : RsaResult
deriving DecidableEq

/-- The `valid` verdict of an `rsa_sig_val` result. -/
def rsa_valid : RsaResult → Bool
  | .ok v _ _ => v
  | .exc => false

def rsa_sig_val (variant : String) (major : Nat) (reading : List Nat)
    (m : MN2_Manifest) (check_start : Nat) : RsaResult :=
  let man_hdr := m.HeaderLength * 4
  let man_size := m.Size * 4
  let man_pexp := m.RsaPubExp
  let man_pkey := fromWordsLE m.RsaPubKey
  let man_sign := fromWordsLE m.RsaSig
  if man_pkey = 0 then .exc
  else
    let dec_sign := toHexV (man_sign ^ man_pexp % man_pkey)
    let msg := pySlice reading check_start (check_start + 0x80) ++
      pySlice reading (check_start + man_hdr) (check_start + man_size)
    if (variant = "ME" ∧ major < 6) ∨ (variant = "SPS" ∧ major < 2) then
      let dec_hash := dec_sign.drop (dec_sign.length - 40)
      let rsa_hash := digitsPad 16 40 (sha1Nat msg)
      .ok (dec_hash == rsa_hash) dec_hash rsa_hash
    else
      let dec_hash := dec_sign.drop (dec_sign.length - 64)
      let rsa_hash := digitsPad 16 64 (sha256Nat msg)
      .ok (dec_hash == rsa_hash) dec_hash rsa_hash

/-- C2 amended: with a non-zero embedded modulus, `rsa_sig_val` hashes the
`0x80` bytes at the check start plus the declared protected range, decrypts
via `signature ^ exponent mod modulus`, selects SHA-1 exactly for
(ME, major < 6) and (SPS, major < 2), and reports a valid verdict iff the
decrypted value has at least 40 (SHA-1) resp. 64 (SHA-256) significant hex
digits AND its low 160 resp. 256 bits equal the computed digest.  (The
significant-digit condition is what the plain low-bits claim misses: `'%X'`
drops leading zeros, so a short decrypted value never string-compares equal
to the fixed-width digest.) -/
theorem c2_rsa_verdict_amended (variant : String) (major : Nat) (reading : List Nat)
    (m : MN2_Manifest) (cs : Nat) (hkey : fromWordsLE m.RsaPubKey ≠ 0) :
    rsa_valid (rsa_sig_val variant major reading m cs) = true ↔
      (let L : Nat :=
        if (variant = "ME" ∧ major < 6) ∨ (variant = "SPS" ∧ major < 2) then 40 else 64
       let d : Nat := fromWordsLE m.RsaSig ^ m.RsaPubExp % fromWordsLE m.RsaPubKey
       let msg : List Nat := pySlice reading cs (cs + 0x80) ++
         pySlice reading (cs + m.HeaderLength * 4) (cs + m.Size * 4)
       16 ^ (L - 1) ≤ d ∧
         d % 16 ^ L = (if L = 40 then sha1Nat msg else sha256Nat msg)) := by
  by_cases hsel : (variant = "ME" ∧ major < 6) ∨ (variant = "SPS" ∧ major < 2)
  · simp only [rsa_sig_val, if_neg hkey, if_pos hsel, rsa_valid]
    exact hexCompare _ _ 40 (by norm_num) (sha1Nat_lt _)
  · simp only [rsa_sig_val, if_neg hkey, if_neg hsel, rsa_valid]
    have h64 : (64 : Nat) = 40 ↔ False := by norm_num
    simp only [h64, if_false]
    exact hexCompare _ _ 64 (by norm_num) (sha256Nat_lt _)

/-- A one-byte image whose single byte is `0x0B`: `SHA1(b'\x0B')` starts
with a zero nibble (digest `0x067D...5A47 < 16 ^ 39`). -/
def c2img : List Nat := [0x0B]

/-- A manifest over `c2img` with exponent 1, modulus `2 ^ 2047` (word 63 =
`0x80000000`) and signature words encoding exactly `SHA1(b'\x0B')`;
`HeaderLength = Size = 0` makes the protected range empty, so the hashed
message is just `c2img`. Decryption yields the digest itself. -/
def c2man : MN2_Manifest :=
  { HeaderLength := 0
    Size := 0
    RsaPubExp := 1
    RsaPubKey := List.replicate 63 0 ++ [0x80000000]
    RsaSig := [0x5B565A47, 0x5E375428, 0x53BB1C7D, 0xF219C64B, 0x067D5096] ++
      List.replicate 59 0 }

/-- C2 counterexample: the low 160 bits of the decrypted value equal the
computed SHA-1 digest, yet `rsa_sig_val` (variant "ME", major 5, so the
SHA-1 arm) reports an INVALID verdict: the decrypted value has only 39
significant hex digits, so `'%X' % dec` sliced by `[-40:]` is 39 characters
long and never equals the 40-character `hexdigest()`. The claimed
"valid iff low bits equal digest" equivalence is therefore false. -/
theorem c2_rsa_verdict_cex :
    rsa_valid (rsa_sig_val "ME" 5 c2img c2man 0) = false ∧
      (fromWordsLE c2man.RsaSig ^ c2man.RsaPubExp % fromWordsLE c2man.RsaPubKey) % 2 ^ 160 =
        sha1Nat (pySlice c2img 0 (0 + 0x80) ++
          pySlice c2img (0 + c2man.HeaderLength * 4) (0 + c2man.Size * 4)) := by
  constructor
  · decide
  · decide

/-- Witness for C2 (amended) at a concrete valid-signature instance: image
`[0x00]`, signature words encoding `SHA1(b'\x00')` (whose top nibble is
non-zero), exponent 1, modulus `2 ^ 2047`. -/
theorem c2_rsa_verdict_amended_witness :
    rsa_valid (rsa_sig_val "ME" 5 [0]
      { HeaderLength := 0, Size := 0, RsaPubExp := 1,
        RsaPubKey := List.replicate 63 0 ++ [0x80000000],
        RsaSig := [0xEDA2784F, 0x420E43F6, 0x52B521D7, 0xB0CFF93F, 0x5BA93C9D] ++
          List.replicate 59 0 } 0) = true ↔
      (let L : Nat := if (("ME" : String) = "ME" ∧ 5 < 6) ∨ (("ME" : String) = "SPS" ∧ 5 < 2)
        then 40 else 64
       let d : Nat := fromWordsLE ([0xEDA2784F, 0x420E43F6, 0x52B521D7, 0xB0CFF93F, 0x5BA93C9D] ++
         List.replicate 59 0) ^ 1 % fromWordsLE (List.replicate 63 0 ++ [0x80000000])
       let msg : List Nat := pySlice [0] 0 (0 + 0x80) ++
         pySlice [0] (0 + 0 * 4) (0 + 0 * 4)
       16 ^ (L - 1) ≤ d ∧
         d % 16 ^ L = (if L = 40 then sha1Nat msg else sha256Nat msg)) :=
  c2_rsa_verdict_amended "ME" 5 [0]
    { HeaderLength := 0, Size := 0, RsaPubExp := 1,
      RsaPubKey := List.replicate 63 0 ++ [0x80000000],
      RsaSig := [0xEDA2784F, 0x420E43F6, 0x52B521D7, 0xB0CFF93F, 0x5BA93C9D] ++
        List.replicate 59 0 } 0 (by decide)

/-! ## Batch processing and fatal struct reads (MEA.py lines 1416-1434,
1513-1517, 2718, 2881-2985, 2996-3007)

`get_struct` checks `(off > file_end) or (fit_len < struct_len)` with
`fit_len = len(str_[off:off+struct_len])`; on failure it prints the error,
optionally copies the file (`-check`), and then ALWAYS calls `mea_exit(1)`,
which runs `sys.exit(code)` — terminating the whole process, batch mode
included.  The driver loop `for file_in in source :` has no exception
handling; only the explicit no-manifest-anchor path ends in `continue`
(line 2985).  The model below covers the per-image prefix that decides this
claim: manifest-anchor detection (`br'\x00\x24\x4D((\x4E\x32)|(\x41\x4E))'`,
line 2881) and the BPDT header reads of the engine branch
(`get_struct(reading, start_fw_start_match, BPDT_Header)` for each match of
`br'\xAA\x55([\x00\xAA])\x00.\x00\x01\x00'`, lines 2996-3007; BPDT_Header
is 0x18 bytes); the rest of the per-image analysis is abstracted as
completing normally. -/

/-- What a control path does to the batch: fall through to the next input
file, or leave the process (`mea_exit` → `sys.exit`). -/
inductive ProcAction where
  | continueBatch : ProcAction
  | exitProcess : ProcAction
deriving DecidableEq

/-- The out-of-bounds test of `get_struct` (lines 1416-1422):
`fit_len = len(str_[off:off+struct_len]) = min (strLen - off) structLen`
(Python's clipped slice), and the read is fatal when `off > file_end` or
`fit_len < struct_len`.  The fatal path always ends in `mea_exit(1)`. -/
def get_struct_fatal (strLen off structLen fileEnd : Nat) : Bool :=
  decide (off > fileEnd) || decide (min (strLen - off) structLen < structLen)

/-- Manifest anchor `\x00$MN2` / `\x00$MAN` at offset `i` (a short read near
the buffer end never matches, as with `re.finditer`). -/
def man_anchor_at (rd : List Nat) (i : Nat) : Bool :=
  readBytes rd i 5 == [0x00, 0x24, 0x4D, 0x4E, 0x32] ||
    readBytes rd i 5 == [0x00, 0x24, 0x4D, 0x41, 0x4E]

def man_anchor_exists (rd : List Nat) : Bool :=
  (List.range rd.length).any (man_anchor_at rd)

/-- BPDT header signature `\xAA\x55([\x00\xAA])\x00.\x00\x01\x00` at `i`. -/
def bpdt_sig_at (rd : List Nat) (i : Nat) : Bool :=
  let b := readBytes rd i 8
  b.length == 8 && b.getD 0 0 == 0xAA && b.getD 1 0 == 0x55 &&
    (b.getD 2 0 == 0x00 || b.getD 2 0 == 0xAA) && b.getD 3 0 == 0x00 &&
    b.getD 5 0 == 0x00 && b.getD 6 0 == 0x01 && b.getD 7 0 == 0x00

def bpdt_offsets (rd : List Nat) : List Nat :=
  (List.range rd.length).filter (bpdt_sig_at rd)

/-- One image of the driver loop: no manifest anchor ends in `continue`
(line 2985); with an anchor, every BPDT match is read as a 0x18-byte
`BPDT_Header` via `get_struct`, whose failure exits the process. -/
def process_image (rd : List Nat) : ProcAction :=
  if man_anchor_exists rd then
    if (bpdt_offsets rd).any (fun off => get_struct_fatal rd.length off 0x18 rd.length)
    then .exitProcess else .continueBatch
  else .continueBatch

/-- Number of input files the `for file_in in source :` loop actually
processes: `sys.exit` propagates out of the loop, so a fatal image is the
last one touched. -/
def batchProcessedCount : List (List Nat) → Nat
  | [] => 0
  | rd :: rest =>
    match process_image rd with
    | .continueBatch => 1 + batchProcessedCount rest
    | .exitProcess => 1

/-- A 16-byte image with a manifest anchor at 0 and a BPDT signature in its
last 8 bytes: the 0x18-byte `BPDT_Header` read at offset 8 runs past the
buffer end, so `get_struct` calls `mea_exit(1)`. -/
def c4img1 : List Nat :=
  [0x00, 0x24, 0x4D, 0x4E, 0x32, 0x00, 0x00, 0x00,
   0xAA, 0x55, 0x00, 0x00, 0x00, 0x00, 0x01, 0x00]

/-- A harmless image with no manifest anchor (skipped with `continue`). -/
def c4img2 : List Nat := [0x00, 0x00, 0x00, 0x00]

/-- C4 counterexample: in the batch `[c4img1, c4img2]` the out-of-bounds
structure read in the first image terminates the whole process
(`mea_exit(1)` → `sys.exit`), so only 1 of the 2 images is processed — the
failure does NOT merely skip that image. -/
theorem c4_batch_abort_cex :
    batchProcessedCount [c4img1, c4img2] ≠ ([c4img1, c4img2] : List (List Nat)).length := by
  decide

/-- C4 amended: a missing manifest anchor skips only that image, but an
out-of-bounds structure read exits the process: in any batch, the images
after the first fatal one are never processed (`pre.length + 1` files are
touched). -/
theorem c4_batch_abort_amended (pre : List (List Nat)) (img : List Nat)
    (post : List (List Nat))
    (hpre : ∀ i ∈ pre, process_image i = .continueBatch)
    (himg : process_image img = .exitProcess) :
    batchProcessedCount (pre ++ img :: post) = pre.length + 1 := by
  induction pre with
  | nil => simp [batchProcessedCount, himg]
  | cons x xs ih =>
    have hx : process_image x = .continueBatch := hpre x (by simp)
    have hxs : ∀ i ∈ xs, process_image i = .continueBatch := by
      intro i hi
      exact hpre i (by simp [hi])
    have h2 := ih hxs
    simp only [List.cons_append, batchProcessedCount, hx, List.length_cons, List.append_eq]
    omega

/-- Witness for C4 (amended) on the batch `[c4img2, c4img1, c4img2]`: the
clean first image and the fatal second one are processed, the third is
not. -/
theorem c4_batch_abort_amended_witness :
    batchProcessedCount [c4img2, c4img1, c4img2] =
      ([c4img2] : List (List Nat)).length + 1 :=
  c4_batch_abort_amended [c4img2] c4img1 [c4img2] (by decide) (by decide)

/-! ## Uncharted $CPD partition walk (MEA.py lines 3477-3526)

```python
while reading[p_end_last:p_end_last + 0x4] == b'$CPD' :
    cpd_hdr = get_struct(reading, p_end_last, CPD_Header)
    cpd_num = cpd_hdr.NumModules
    cpd_tag = cpd_hdr.PartitionName
    mn2_start = p_end_last + 0x10 + cpd_num * 0x18
    mn2_hdr = get_struct(reading, mn2_start, MN2_Manifest)
    if mn2_hdr.Tag == b'$MN2' :
        man_len = mn2_hdr.HeaderLength * 4
        cpd_ext_03 = get_struct(reading, mn2_start + man_len, CPD_Ext_03)
        fpt_in_id = '%0.4X' % cpd_ext_03.InstanceID
        if cpd_ext_03.PartitionName == cpd_hdr.PartitionName :
            p_end_last_cont = cpd_ext_03.PartitionSize
        else : break
    else : break
    for entry in range(1, cpd_num, 2) :     # Skip 1st .man module, check only .met
        cpd_entry_hdr = get_struct(reading, p_end_last + 0x10 + entry * 0x18, CPD_Entry)
        ... cpd_mod_off ...
        if b'.met' not in cpd_entry_name and b'.man' not in cpd_entry_name :
            if cpd_entry_offset > cpd_offset_last :
                cpd_offset_last = cpd_entry_offset
                cpd_end_last = cpd_entry_offset + cpd_entry_size
        else : break
    p_end_last += max(p_end_last_cont, cpd_end_last)
```

Struct sizes: `CPD_Header` 0x10, `MN2_Manifest` 0x284, `CPD_Ext_03` 0x58,
`CPD_Entry` 0x18.  ctypes `char*N` field access truncates at the first NUL
byte (`truncAtNul`); the `while` guard compares a raw slice, untruncated.
`cpd_offset_last`, `cpd_end_last` and `p_end_last_cont` are initialised
once per input image and NOT reset between loop iterations or partitions.
`fpt_in_id` and the `fpt_part_all` bookkeeping do not feed back into the
loop and are omitted. -/

def metBytes : List Nat := [0x2E, 0x6D, 0x65, 0x74]

def manBytes : List Nat := [0x2E, 0x6D, 0x61, 0x6E]

def cpdTagBytes : List Nat := [0x24, 0x43, 0x50, 0x44]

def mn2TagBytes : List Nat := [0x24, 0x4D, 0x4E, 0x32]

/-- ctypes `char*N` field access: bytes up to the first NUL. -/
def truncAtNul (l : List Nat) : List Nat := l.takeWhile (fun b => !(b == 0))

def startsWithSeq : List Nat → List Nat → Bool
  | [], _ => true
  | _ :: _, [] => false
  | p :: ps, x :: xs => p == x && startsWithSeq ps xs

/-- Python `pat in bytes` (contiguous subsequence). -/
def containsSeq (pat : List Nat) : List Nat → Bool
  | [] => pat.isEmpty
  | x :: t => startsWithSeq pat (x :: t) || containsSeq pat t

/-- `b'.met' in name or b'.man' in name`. -/
def isMetaName (name : List Nat) : Bool :=
  containsSeq metBytes name || containsSeq manBytes name

/-- `range(1, n, 2)`: the odd indices below `n`. -/
def oddIdx (n : Nat) : List Nat := (List.range n).filter (fun i => i % 2 == 1)

/-- The loop-carried variables of the uncharted-partition walk. -/
structure CpdWalkState where
  p_end_last : Nat
  cpd_offset_last : Nat
  cpd_end_last : Nat
  p_end_last_cont : Nat
deriving DecidableEq

/-- Outcome of one iteration of the walk body. -/
inductive WalkStep where
  | fatal : WalkStep
  | breakLoop (s : CpdWalkState) : WalkStep
  | next (s : CpdWalkState) : WalkStep
deriving DecidableEq

/-- Outcome of the `for entry in range(1, cpd_num, 2)` nested loop. -/
inductive ScanResult where
  | fatal : ScanResult
  | ok (offLast endLast : Nat) : ScanResult
deriving DecidableEq

/-- The nested entry loop: reads each odd-indexed `CPD_Entry`, skips to the
next on a growing offset, and breaks at the first `.man`/`.met` name. -/
def cpd_entries_scan (rd : List Nat) (p : Nat) :
    List Nat → Nat → Nat → ScanResult
  | [], offLast, endLast => .ok offLast endLast
  | i :: rest, offLast, endLast =>
    let eoff := p + 0x10 + i * 0x18
    if get_struct_fatal rd.length eoff 0x18 rd.length then .fatal
    else
      let name := truncAtNul (readBytes rd eoff 12)
      if isMetaName name then .ok offLast endLast
      else
        let off := cpd_mod_off (le32 rd (eoff + 0xC))
        if off > offLast then
          cpd_entries_scan rd p rest off (off + le32 rd (eoff + 0x10))
        else
          cpd_entries_scan rd p rest offLast endLast

/-- One iteration of the `while reading[p_end_last:p_end_last+4] == b'$CPD'`
body (the guard is checked by the runner `cpd_walk`). -/
def cpd_walk_body (rd : List Nat) (s : CpdWalkState) : WalkStep :=
  let p := s.p_end_last
  if get_struct_fatal rd.length p 0x10 rd.length then .fatal
  else
    let cpd_num := le32 rd (p + 4)
    let cpd_tag := truncAtNul (readBytes rd (p + 0xC) 4)
    let mn2_start := p + 0x10 + cpd_num * 0x18
    if get_struct_fatal rd.length mn2_start 0x284 rd.length then .fatal
    else if truncAtNul (readBytes rd (mn2_start + 0x1C) 4) == mn2TagBytes then
      let man_len := le32 rd (mn2_start + 4) * 4
      if get_struct_fatal rd.length (mn2_start + man_len) 0x58 rd.length then .fatal
      else if truncAtNul (readBytes rd (mn2_start + man_len + 0x8) 4) == cpd_tag then
        let cont := le32 rd (mn2_start + man_len + 0xC)
        match cpd_entries_scan rd p (oddIdx cpd_num) s.cpd_offset_last s.cpd_end_last with
        | .fatal => .fatal
        | .ok offLast endLast =>
          .next ⟨p + max cont endLast, offLast, endLast, cont⟩
      else .breakLoop s
    else .breakLoop s

/-- Result of running the walk with bounded fuel. -/
inductive WalkOutcome where
  | finished (s : CpdWalkState) : WalkOutcome
  | fatalExit : WalkOutcome
  | spinning : WalkOutcome
deriving DecidableEq

/-- The walk itself: loop while the 4 bytes at `p_end_last` are `$CPD`;
`spinning` means the given iteration budget was exhausted without the loop
ever terminating. -/
def cpd_walk (rd : List Nat) : Nat → CpdWalkState → WalkOutcome
  | 0, _ => .spinning
  | fuel + 1, s =>
    if readBytes rd s.p_end_last 4 == cpdTagBytes then
      match cpd_walk_body rd s with
      | .fatal => .fatalExit
      | .breakLoop s' => .finished s'
      | .next s' => cpd_walk rd fuel s'
    else .finished s

/-- A 0x2AC-byte image: `$CPD` at 0 with `NumModules = 1`, partition name
`AAAA`; the manifest slot at 0x28 has `HeaderLength = 0`, tag `$MN2` at
0x44, and the Extension 0x03 slot (overlapping the manifest, at 0x28) has
matching partition name `AAAA` at 0x30 and `PartitionSize = 0` at 0x34.
All sanity checks pass, the entry loop `range(1, 1, 2)` is empty, and the
iteration adds `max(0, 0) = 0` to `p_end_last`. -/
def c5img : List Nat :=
  [0x24, 0x43, 0x50, 0x44, 0x01, 0x00, 0x00, 0x00,
   0x00, 0x00, 0x00, 0x00, 0x41, 0x41, 0x41, 0x41] ++
  List.replicate 0x20 0 ++
  [0x41, 0x41, 0x41, 0x41] ++
  List.replicate 0x10 0 ++
  [0x24, 0x4D, 0x4E, 0x32] ++
  List.replicate 0x264 0

/-- C5: on `c5img` the uncharted-partition walk never terminates: every
iteration passes all sanity checks yet adds `max(PartitionSize = 0,
cpd_end_last = 0) = 0`, leaving the state unchanged with the `$CPD` guard
still true — the loop spins forever, for every iteration budget.  The
claimed no-forward-progress termination guard does not exist in the code. -/
theorem c5_walk_no_progress_spins (n : Nat) :
    cpd_walk c5img n ⟨0, 0, 0, 0⟩ = .spinning := by
  have hguard : (readBytes c5img (0 : Nat) 4 == cpdTagBytes) = true := by decide
  have hbody : cpd_walk_body c5img ⟨0, 0, 0, 0⟩ = .next ⟨0, 0, 0, 0⟩ := by decide
  induction n with
  | zero => rfl
  | succ n ih =>
    show cpd_walk c5img (n + 1) ⟨0, 0, 0, 0⟩ = .spinning
    rw [cpd_walk]
    simp only [hguard, if_true, hbody, ih]

/-- An 868-byte image: `$CPD` at 0 with 5 entries — index 0 `A.man`,
index 1 `MODA` (offset 0x200, size 0x10), index 2 `MODA.met`, index 3
`MODB` (offset 0x100, size 0x200), index 4 `MODB.met` — and a `$MN2`
manifest at 0x88 (`HeaderLength = 0xA1`) whose Extension 0x03 at 0x30C has
matching partition name `AAAA` and `PartitionSize = 0x10`. -/
def c6img : List Nat :=
  [0x24, 0x43, 0x50, 0x44, 0x05, 0x00, 0x00, 0x00,
   0x00, 0x00, 0x00, 0x00, 0x41, 0x41, 0x41, 0x41] ++
  ([0x41, 0x2E, 0x6D, 0x61, 0x6E] ++ List.replicate 19 0) ++
  ([0x4D, 0x4F, 0x44, 0x41] ++ List.replicate 8 0 ++
    [0x00, 0x02, 0x00, 0x00, 0x10, 0x00, 0x00, 0x00] ++ List.replicate 4 0) ++
  ([0x4D, 0x4F, 0x44, 0x41, 0x2E, 0x6D, 0x65, 0x74] ++ List.replicate 16 0) ++
  ([0x4D, 0x4F, 0x44, 0x42] ++ List.replicate 8 0 ++
    [0x00, 0x01, 0x00, 0x00, 0x00, 0x02, 0x00, 0x00] ++ List.replicate 4 0) ++
  ([0x4D, 0x4F, 0x44, 0x42, 0x2E, 0x6D, 0x65, 0x74] ++ List.replicate 16 0) ++
  (List.replicate 4 0 ++ [0xA1, 0x00, 0x00, 0x00] ++ List.replicate 0x14 0) ++
  [0x24, 0x4D, 0x4E, 0x32] ++
  List.replicate 0x264 0 ++
  (List.replicate 8 0 ++ [0x41, 0x41, 0x41, 0x41, 0x10, 0x00, 0x00, 0x00] ++
    List.replicate 0x48 0)

/-- The name/offset/size triple of `$CPD` entry `i` of the directory at
`p` (decoded as `ext_anl` does). -/
def entryAt (rd : List Nat) (p i : Nat) : List Nat × Nat × Nat :=
  let eoff := p + 0x10 + i * 0x18
  (truncAtNul (readBytes rd eoff 12), cpd_mod_off (le32 rd (eoff + 0xC)),
    le32 rd (eoff + 0x10))

/-- Offset of the `$MN2` manifest following the `$CPD` entry table at `p`. -/
def mn2Start (rd : List Nat) (p : Nat) : Nat := p + 0x10 + le32 rd (p + 4) * 0x18

/-- The `PartitionSize` field of the Extension 0x03 record after the
manifest header. -/
def ext03PartSize (rd : List Nat) (p : Nat) : Nat :=
  le32 rd (mn2Start rd p + le32 rd (mn2Start rd p + 4) * 4 + 0xC)

/-- Formalisation of the SPEC'S claim C6 (not of the code): the inferred
partition end is the partition start plus the larger of the Extension 0x03
`PartitionSize` and the maximum of `offset + size` over ALL non-metadata
entries of the directory. -/
def c6_claimed_end (rd : List Nat) (p : Nat) : Nat :=
  let ends := (((List.range (le32 rd (p + 4))).map (entryAt rd p)).filter
    (fun e => !(isMetaName e.1))).map (fun e => e.2.1 + e.2.2)
  p + max (ext03PartSize rd p) (ends.foldl max 0)

/-- C6 counterexample: on `c6img` one walk iteration advances `p_end_last`
by `max(0x10, 0x210) = 0x210` — `0x210` is `offset + size` of the entry
with the GREATEST OFFSET (`MODA`) — while the claim's
"maximum of `offset + size` over all non-metadata entries" is
`0x300` (entry `MODB`: `0x100 + 0x200`), so the claimed inferred size is
wrong. -/
theorem c6_size_inference_cex :
    cpd_walk_body c6img ⟨0, 0, 0, 0⟩ = .next ⟨0x210, 0x200, 0x210, 0x10⟩ ∧
      c6_claimed_end c6img 0 = 0x300 := by
  constructor
  · decide
  · decide

/-- The entry fold the walk actually performs: keep the `offset + size` of
the entry with the greatest offset seen so far (carry-in included). -/
def maxOffEnd : List (Nat × Nat) → Nat × Nat → Nat × Nat
  | [], acc => acc
  | (o, sz) :: rest, acc => maxOffEnd rest (if o > acc.1 then (o, o + sz) else acc)

/-- The odd-indexed entries the walk scans, stopping at the first
`.man`/`.met` name. -/
def scannedEntries (rd : List Nat) (p : Nat) : List (Nat × Nat) :=
  (((oddIdx (le32 rd (p + 4))).map (entryAt rd p)).takeWhile
    (fun e => !(isMetaName e.1))).map (fun e => e.2)

theorem cpd_entries_scan_ok (rd : List Nat) (p : Nat) :
    ∀ (idxs : List Nat) (ol el ol' el' : Nat),
      cpd_entries_scan rd p idxs ol el = .ok ol' el' →
      (ol', el') = maxOffEnd (((idxs.map (entryAt rd p)).takeWhile
        (fun e => !(isMetaName e.1))).map (fun e => e.2)) (ol, el) := by
  intro idxs
  induction idxs with
  | nil =>
    intro ol el ol' el' h
    rw [cpd_entries_scan] at h
    cases h
    simp [maxOffEnd]
  | cons i rest ih =>
    intro ol el ol' el' h
    rw [cpd_entries_scan] at h
    by_cases hfat : get_struct_fatal rd.length (p + 0x10 + i * 0x18) 0x18 rd.length = true
    · rw [if_pos hfat] at h
      cases h
    · rw [if_neg hfat] at h
      by_cases hmeta : isMetaName (truncAtNul (readBytes rd (p + 0x10 + i * 0x18) 12)) = true
      · rw [if_pos hmeta] at h
        cases h
        simp only [List.map_cons, List.takeWhile_cons, entryAt, hmeta,
          Bool.not_true, if_false]
        simp [maxOffEnd]
      · rw [if_neg hmeta] at h
        have hcons : ((entryAt rd p i :: rest.map (entryAt rd p)).takeWhile
            (fun e => !(isMetaName e.1))).map (fun e => e.2) =
            (cpd_mod_off (le32 rd (p + 0x10 + i * 0x18 + 0xC)),
              le32 rd (p + 0x10 + i * 0x18 + 0x10)) ::
            ((rest.map (entryAt rd p)).takeWhile
              (fun e => !(isMetaName e.1))).map (fun e => e.2) := by
          rw [List.takeWhile_cons]
          simp only [entryAt, hmeta, Bool.not_true]
          simp
        rw [List.map_cons, hcons, maxOffEnd]
        by_cases hgt : cpd_mod_off (le32 rd (p + 0x10 + i * 0x18 + 0xC)) > ol
        · rw [if_pos hgt] at h
          rw [if_pos hgt]
          exact ih _ _ _ _ h
        · rw [if_neg hgt] at h
          rw [if_neg hgt]
          exact ih _ _ _ _ h

/-- C6 amended: whenever a walk iteration continues, the new
`p_end_last_cont` is the Extension 0x03 `PartitionSize`, the new
`(cpd_offset_last, cpd_end_last)` pair is `offset + size` of the
greatest-offset entry among the odd-indexed entries scanned (stopping at
the first `.man`/`.met` name, the running maximum carried over from earlier
partitions), and the partition end advances by the larger of the two —
NOT by the maximum of `offset + size` over all non-metadata entries. -/
theorem c6_size_inference_amended (rd : List Nat) (s s' : CpdWalkState)
    (h : cpd_walk_body rd s = .next s') :
    s'.p_end_last_cont = ext03PartSize rd s.p_end_last ∧
      (s'.cpd_offset_last, s'.cpd_end_last) =
        maxOffEnd (scannedEntries rd s.p_end_last)
          (s.cpd_offset_last, s.cpd_end_last) ∧
      s'.p_end_last = s.p_end_last + max s'.p_end_last_cont s'.cpd_end_last := by
  simp only [cpd_walk_body] at h
  split at h
  · simp at h
  · split at h
    · simp at h
    · split at h
      · split at h
        · simp at h
        · split at h
          · split at h
            · simp at h
            · rename_i a b hscan
              cases h
              refine ⟨rfl, ?_, rfl⟩
              have := cpd_entries_scan_ok rd s.p_end_last _ _ _ _ _ hscan
              rw [scannedEntries]
              exact this
          · simp at h
      · simp at h

/-- Witness for C6 (amended) on `c6img` from the all-zero initial state:
the iteration continues into `⟨0x210, 0x200, 0x210, 0x10⟩`. -/
theorem c6_size_inference_amended_witness :
    (CpdWalkState.mk 0x210 0x200 0x210 0x10).p_end_last_cont = ext03PartSize c6img 0 ∧
      ((CpdWalkState.mk 0x210 0x200 0x210 0x10).cpd_offset_last,
        (CpdWalkState.mk 0x210 0x200 0x210 0x10).cpd_end_last) =
        maxOffEnd (scannedEntries c6img 0) (0, 0) ∧
      (CpdWalkState.mk 0x210 0x200 0x210 0x10).p_end_last =
        0 + max (CpdWalkState.mk 0x210 0x200 0x210 0x10).p_end_last_cont
          (CpdWalkState.mk 0x210 0x200 0x210 0x10).cpd_end_last :=
  c6_size_inference_amended c6img ⟨0, 0, 0, 0⟩ ⟨0x210, 0x200, 0x210, 0x10⟩ (by decide)

/-! ## The $CPD extension-stream loop (MEA.py `ext_anl`, lines 1964-2089)

```python
ext_tag = int.from_bytes(reading[cpd_ext_offset:cpd_ext_offset + 0x4], 'little')
while True :
    loop_break += 1
    if loop_break > 100 :
        gen_msg(err_stor, 'Error: Forced $CPD Extension Analysis break after 100 loops ...')
        break
    if ext_tag not in ext_tag_all :
        gen_msg(err_stor, 'Error: Found unimplemented $CPD Extension ...')
        ext_tag = int.from_bytes(reading[cpd_ext_offset:cpd_ext_offset + 0x4], 'little')
    cpd_ext_size = int.from_bytes(reading[cpd_ext_offset + 0x4:cpd_ext_offset + 0x8], 'little')
    ... per-tag analysis (no effect on control flow) ...
    cpd_ext_offset += cpd_ext_size
    if cpd_ext_offset + 1 > cpd_entry_offset + cpd_entry_hdr.Size :
        ... break
    ext_tag = int.from_bytes(reading[cpd_ext_offset:cpd_ext_offset + 0x4], 'little')
```

The model recurses on `remaining = 100 - loop_break`, the code's own
termination device: `remaining = 0` is the `loop_break > 100` arm (error
reported, loop stopped, no extension processed).  `iters` counts processed
extensions, `errors` counts `gen_msg` error reports (unknown tag or cap). -/

/-- `ext_tag_all = list(range(17)) + list(range(18,22)) + [50]`
(line 1865). -/
def ext_tag_all : List Nat := List.range 17 ++ List.range' 18 4 ++ [50]

structure ExtLoopRes where
  iters : Nat
  errors : Nat
  capHit : Bool
  endOff : Nat
deriving DecidableEq

def ext_loop_go (rd : List Nat) (entryOff entrySize : Nat) :
    Nat → Nat → ExtLoopRes
  | 0, extOff => ⟨0, 1, true, extOff⟩
  | remaining + 1, extOff =>
    let ext_tag := le32 rd extOff
    let unknownErr := if ext_tag ∈ ext_tag_all then 0 else 1
    let sz := le32 rd (extOff + 4)
    let extOff' := extOff + sz
    if extOff' + 1 > entryOff + entrySize then ⟨1, unknownErr, false, extOff'⟩
    else
      let r := ext_loop_go rd entryOff entrySize remaining extOff'
      ⟨r.iters + 1, r.errors + unknownErr, r.capHit, r.endOff⟩

/-- The extension loop as entered with `loop_break = 0`. -/
def ext_loop (rd : List Nat) (entryOff entrySize extOff : Nat) : ExtLoopRes :=
  ext_loop_go rd entryOff entrySize 100 extOff

theorem ext_loop_go_bound (rd : List Nat) (eo esz : Nat) :
    ∀ (remaining extOff : Nat),
      (ext_loop_go rd eo esz remaining extOff).iters ≤ remaining ∧
        ((ext_loop_go rd eo esz remaining extOff).capHit = true →
          1 ≤ (ext_loop_go rd eo esz remaining extOff).errors) := by
  intro remaining
  induction remaining with
  | zero => intro extOff; exact ⟨Nat.le_refl 0, fun _ => Nat.le_refl 1⟩
  | succ remaining ih =>
    intro extOff
    rw [ext_loop_go]
    by_cases hend : extOff + le32 rd (extOff + 4) + 1 > eo + esz
    · simp only [if_pos hend]
      exact ⟨by omega, by intro hc; simp at hc⟩
    · simp only [if_neg hend]
      obtain ⟨h1, h2⟩ := ih (extOff + le32 rd (extOff + 4))
      refine ⟨by simpa using Nat.add_le_add_right h1 1, ?_⟩
      intro hc
      have := h2 (by simpa using hc)
      omega

/-- C7: for every buffer, owning-entry bounds and start offset, the
extension loop processes at most 100 extensions, and whenever the 100-loop
safety cap fires it has reported an error — so extension parsing, declared
length 0 and over-long length chains included, always stops. -/
theorem c7_ext_loop_cap (rd : List Nat) (eo esz off : Nat) :
    (ext_loop rd eo esz off).iters ≤ 100 ∧
      ((ext_loop rd eo esz off).capHit = true →
        1 ≤ (ext_loop rd eo esz off).errors) :=
  ext_loop_go_bound rd eo esz 100 off

/-- Sanity: an all-zero buffer (every declared extension length 0) makes no
progress, so the loop runs its full 100 iterations, hits the cap and
reports the error. -/
theorem ext_loop_zero_length_chain :
    (ext_loop (List.replicate 8 0) 0 0x100 0).iters = 100 ∧
      (ext_loop (List.replicate 8 0) 0 0x100 0).capHit = true ∧
      (ext_loop (List.replicate 8 0) 0 0x100 0).errors = 1 := by
  refine ⟨?_, ?_, ?_⟩ <;> decide

/-! ## Removal of missing APL IBBP modules (MEA.py `ext_anl`, lines 2169-2176)

```python
if len(ibbp_all) :
    for ibbp in ibbp_bpm :                 # ibbp_bpm = ['IBBL', 'IBB', 'OBB']
        if ibbp not in ibbp_all :          # declared at BPM.met but missing at $CPD
            for mod_index in range(len(cpd_mod_attr)) :
                if cpd_mod_attr[mod_index][0] == ibbp : ibbp_del.append(mod_index)
    for mod_index in ibbp_del : del cpd_mod_attr[mod_index]
```

The indices in `ibbp_del` are computed against the ORIGINAL list, but the
deletions are applied sequentially; each `del` shifts the later elements
left, and a `del l[i]` with `i >= len(l)` raises `IndexError` (modelled as
`none`).  Attribute rows are represented by their module name
(`cpd_mod_attr[mod_index][0]` is all the removal code reads). -/

def ibbp_bpm : List String := ["IBBL", "IBB", "OBB"]

/-- Python `del l[i]`: remove index `i`, `IndexError` (`none`) when out of
range. -/
def pyDel (l : List String) (i : Nat) : Option (List String) :=
  if i < l.length then some (l.eraseIdx i) else none

def ibbp_removal (cpd_mod_attr : List String) (ibbp_all : List String) :
    Option (List String) :=
  if ibbp_all.length ≠ 0 then
    let ibbp_del := (ibbp_bpm.filter (fun b => !(ibbp_all.contains b))).flatMap
      (fun ibbp => (List.range cpd_mod_attr.length).filter
        (fun i => cpd_mod_attr.get? i == some ibbp))
    ibbp_del.foldlM pyDel cpd_mod_attr
  else some cpd_mod_attr

/-- C8: the stale-index deletion misbehaves as soon as TWO trio modules are
declared-but-missing.  With attribute rows `[IBBL, IBB, OBB, EXTRA]` and
only `IBBL`/`EXTRA` present at `$CPD`, the stored indices `[1, 2]` delete
`IBB` and then — after the shift — the PRESENT `EXTRA` row, leaving the
missing `OBB` row in place.  With rows `[IBBL, IBB, OBB]` and only `IBBL`
present, the second deletion raises `IndexError` (`none`), crashing the
run.  The claim (all missing trio modules removed, two or three missing
included) holds only for a single missing module. -/
theorem c8_ibbp_removal_bug :
    ibbp_removal ["IBBL", "IBB", "OBB", "EXTRA"] ["IBBL", "EXTRA"] =
      some ["IBBL", "OBB"] ∧
      ibbp_removal ["IBBL", "IBB", "OBB"] ["IBBL"] = none := by
  constructor
  · decide
  · decide

/-! ## LZMA module hash validation (MEA.py `mod_anl`, lines 2262-2271 and
2417-2441)

```python
mod_data = reading[mod_start:mod_end]            # mod_end = mod_start + mod_size_comp
if mod_comp == 2 :
    mea_hash_c = sha_256(mod_data).upper()       # before the 3 header zeroes are stripped
    if mod_data.startswith(b'\x36\x00\x40\x00\x00') and mod_data[0xE:0x11] == b'\x00\x00\x00' :
        mod_data = mod_data[:0xE] + mod_data[0x11:]
...
if mod_comp == 2 :
    try :
        mod_data = lzma.LZMADecompressor().decompress(mod_data)
        data_size_uncomp = len(mod_data)
        if data_size_uncomp != mod_size_uncomp : mod_data += b'\xFF' * (mod_size_uncomp - data_size_uncomp)
        mea_hash_u = sha_256(mod_data).upper()
        if mod_hash in [mea_hash_c,mea_hash_u] : ... VALID ... else : ... INVALID ...
    except :
        ... Failed to decompress ... (no hash verdict)
```

This path runs for non-empty (`mod_empty == 0`), non-encrypted
(`mod_encr == 0`) modules with `mod_comp == 2`.  The LZMA decompressor
(standard `lzma` library) is a parameter returning `none` when it raises.
`mod_hash` and the computed hexdigests are fixed-width 64-character hex
strings, so their string comparison is numeric equality of the 256-bit
values. -/

/-- The LZMA header zero-byte strip (bytes 0xE-0x10 removed when the
header matches). -/
def lzma_header_strip (d : List Nat) : List Nat :=
  if startsWithSeq [0x36, 0x00, 0x40, 0x00, 0x00] d &&
      (pySlice d 0xE 0x11 == [0x00, 0x00, 0x00]) then
    d.take 0xE ++ d.drop 0x11
  else d

/-- Outcome of the LZMA branch of `mod_anl` for one module: a hash verdict,
or no verdict because decompression failed. -/
inductive LzmaVerdict where
  | failed : LzmaVerdict
  | verdict (valid : Bool) : LzmaVerdict
deriving DecidableEq

def mod_anl_lzma (lzdec : List Nat → Option (List Nat)) (reading : List Nat)
    (mod_start mod_size_comp mod_size_uncomp mod_hash : Nat) : LzmaVerdict :=
  let mod_data := pySlice reading mod_start (mod_start + mod_size_comp)
  let mea_hash_c := sha256Nat mod_data
  match lzdec (lzma_header_strip mod_data) with
  | none => .failed
  | some dec =>
    let padded := dec ++ List.replicate (mod_size_uncomp - dec.length) 0xFF
    let mea_hash_u := sha256Nat padded
    .verdict (mod_hash == mea_hash_c || mod_hash == mea_hash_u)

/-- C10: whenever decompression succeeds (a hash verdict is reported at
all), the verdict is valid iff the expected hash equals the SHA-256 of the
stored compressed bytes — taken before the three header zero bytes are
stripped — or the SHA-256 of the decompressed bytes padded with `0xFF` up
to the declared uncompressed size; either match suffices. -/
theorem c10_lzma_hash_verdict (lzdec : List Nat → Option (List Nat))
    (reading : List Nat) (ms msc msu mh : Nat) (dec : List Nat)
    (hdec : lzdec (lzma_header_strip (pySlice reading ms (ms + msc))) = some dec) :
    mod_anl_lzma lzdec reading ms msc msu mh = .verdict true ↔
      (mh = sha256Nat (pySlice reading ms (ms + msc)) ∨
        mh = sha256Nat (dec ++ List.replicate (msu - dec.length) 0xFF)) := by
  rw [mod_anl_lzma]
  simp only [hdec]
  constructor
  · intro h
    have hb : (mh == sha256Nat (pySlice reading ms (ms + msc)) ||
        mh == sha256Nat (dec ++ List.replicate (msu - dec.length) 0xFF)) = true := by
      cases hcmp : (mh == sha256Nat (pySlice reading ms (ms + msc)) ||
        mh == sha256Nat (dec ++ List.replicate (msu - dec.length) 0xFF))
      · rw [hcmp] at h
        cases h
      · rfl
    simpa [Bool.or_eq_true, beq_iff_eq] using hb
  · intro h
    have hb : (mh == sha256Nat (pySlice reading ms (ms + msc)) ||
        mh == sha256Nat (dec ++ List.replicate (msu - dec.length) 0xFF)) = true := by
      simpa [Bool.or_eq_true, beq_iff_eq] using h
    rw [hb]

/-- Witness for C10 with a concrete (trivial) decompressor and the empty
module: both hashes coincide with `SHA-256("")` and the verdict is valid
iff that equality holds. -/
theorem c10_lzma_hash_verdict_witness :
    mod_anl_lzma (fun _ => some []) [] 0 0 0
        0xe3b0c44298fc1c149afbf4c8996fb92427ae41e4649b934ca495991b7852b855 =
        .verdict true ↔
      ((0xe3b0c44298fc1c149afbf4c8996fb92427ae41e4649b934ca495991b7852b855 : Nat) =
          sha256Nat (pySlice [] 0 (0 + 0)) ∨
        (0xe3b0c44298fc1c149afbf4c8996fb92427ae41e4649b934ca495991b7852b855 : Nat) =
          sha256Nat (([] : List Nat) ++ List.replicate (0 - ([] : List Nat).length) 0xFF)) :=
  c10_lzma_hash_verdict (fun _ => some []) [] 0 0 0
    0xe3b0c44298fc1c149afbf4c8996fb92427ae41e4649b934ca495991b7852b855 [] rfl

end MEA
